import Mathlib

/-!
Verification of the queue/ledger engine and the TTS fallback resolver of
`tts_queue.py` (agenda_bot).

Shallow embedding: the two SQLite tables (`queue_items` and the singleton
`queue_stats` row) become a Lean record of a list and a record; each SQL
statement becomes the corresponding list operation over a table scanned in
rowid (= `id`) order; the transactional semantics of
`with sqlite3.connect(...)` (commit on success, roll back every statement of
the block on an exception) become explicit all-or-nothing state passing, with
a `fault` flag marking the point where an I/O exception is injected.
Amounts (`REAL`) are modelled as rationals.
-/

/-- A row of the `queue_items` table (`tts_queue.py`, `init_database`). -/
structure QueueItem where
  id : Nat
  username : String
  message : String
  amount : ℚ
  timestamp : String
  processed : Bool
  created_at : Nat
deriving DecidableEq, Repr

/-- The singleton `queue_stats` row (`id = 1`); `last_updated` is not modelled
(no claim mentions it). -/
structure QueueStatsRow where
  total_processed : Nat
  total_amount : ℚ
deriving DecidableEq, Repr

/-- The database file: the `queue_items` table in rowid order, the singleton
stats row, and the next AUTOINCREMENT id. -/
structure DB where
  items : List QueueItem
  stats : QueueStatsRow
  next_id : Nat
deriving DecidableEq, Repr

/-- Boolean prefix test on character lists (helper for the SQL
`LIKE '%[RESET:%'` pattern used by the reset/archival mechanism). -/
def strHasPre : List Char → List Char → Bool
  | [], _ => true
  | _ :: _, [] => false
  | a :: as, b :: bs => a = b && strHasPre as bs

/-- Boolean substring test on character lists. -/
def containsSub (pat : List Char) : List Char → Bool
  | [] => strHasPre pat []
  | c :: rest => strHasPre pat (c :: rest) || containsSub pat rest

/-- The SQL predicate `timestamp LIKE '%[RESET:%'` identifying archived rows. -/
def hasResetMarker (ts : String) : Bool :=
  containsSub "[RESET:".data ts.data

/-- `DatabaseManager.add_to_queue`: INSERT a fresh unprocessed row.  The
creation instant arguments stand for `datetime.now().isoformat()` and the
`CURRENT_TIMESTAMP` default of `created_at`. -/
def add_to_queue (db : DB) (username message : String) (amount : ℚ)
    (now_ts : String) (now_ca : Nat) : Bool × DB :=
  (true,
   { db with
     items := db.items ++ [⟨db.next_id, username, message, amount, now_ts, false, now_ca⟩],
     next_id := db.next_id + 1 })

/-- The rows with `processed = FALSE`, in rowid order. -/
def pendingOf (db : DB) : List QueueItem :=
  db.items.filter fun i => !i.processed

/-- `SELECT ... ORDER BY created_at ASC LIMIT 1` over a table scanned in
rowid order: the first row with minimal `created_at` is kept, so
`created_at` ties resolve to the smallest id. -/
def minByCreated : List QueueItem → Option QueueItem
  | [] => none
  | i :: rest =>
    match minByCreated rest with
    | none => some i
    | some j => if j.created_at < i.created_at then some j else some i

/-- `DatabaseManager.get_next_item`: oldest unprocessed row. -/
def get_next_item (db : DB) : Option QueueItem :=
  minByCreated (pendingOf db)

/-- `DatabaseManager.mark_processed`: SELECT the row's amount (failure when
the id is unknown), UPDATE the row's `processed` flag, UPDATE the aggregate
row.  `fault := true` injects a storage exception between the two UPDATE
statements and before the `conn.commit()`; the `with sqlite3.connect`
block then rolls the whole transaction back, so nothing is visible. -/
def mark_processed (db : DB) (item_id : Nat) (fault : Bool) : Bool × DB :=
  match db.items.find? (fun i => i.id == item_id) with
  | none => (false, db)
  | some it =>
    if fault then (false, db)
    else
      (true,
       { db with
         items := db.items.map fun i =>
           if i.id = item_id then { i with processed := true } else i,
         stats := ⟨db.stats.total_processed + 1, db.stats.total_amount + it.amount⟩ })

/-- The four figures returned by `DatabaseManager.get_queue_stats`. -/
structure StatsView where
  total_in_queue : Nat
  total_amount_pending : ℚ
  total_processed : Nat
  total_amount_processed : ℚ
deriving DecidableEq, Repr

/-- `COALESCE(SUM(amount), 0)` over a set of rows. -/
def sumAmounts (l : List QueueItem) : ℚ :=
  (l.map (·.amount)).sum

/-- `DatabaseManager.get_queue_stats`, including the embedded drift
detector/auto-repairer (the Stats Reconciler): scan the pending rows, scan
the processed rows that bear no reset marker, compare the latter against the
aggregate row, and overwrite the aggregate with the scanned values exactly
when `stats_processed_count < actual_count or stats_processed_amount <
actual_amount` (the drift test itself uses a `0.01` tolerance on amounts).
Returns the reported view together with the (possibly repaired) state. -/
def get_queue_stats (db : DB) : StatsView × DB :=
  let pending := db.items.filter fun i => !i.processed
  let actual := db.items.filter fun i => i.processed && !hasResetMarker i.timestamp
  let sc := db.stats.total_processed
  let sa := db.stats.total_amount
  if actual.length ≠ sc ∨ (1 : ℚ)/100 < abs (sumAmounts actual - sa) then
    if sc < actual.length ∨ sa < sumAmounts actual then
      (⟨pending.length, sumAmounts pending, actual.length, sumAmounts actual⟩,
       { db with stats := ⟨actual.length, sumAmounts actual⟩ })
    else
      (⟨pending.length, sumAmounts pending, sc, sa⟩, db)
  else
    (⟨pending.length, sumAmounts pending, sc, sa⟩, db)

/-- `DatabaseManager.repair_stats_table`: unconditionally overwrite the
aggregate with a scan over all processed rows (archived ones included). -/
def repair_stats_table (db : DB) : Bool × DB :=
  let proc := db.items.filter fun i => i.processed
  (true, { db with stats := ⟨proc.length, sumAmounts proc⟩ })

/-- The archival summary returned by `DatabaseManager.reset_queue_counter`. -/
structure ResetInfo where
  reset_timestamp : String
  items_archived : Nat
  total_amount_archived : ℚ
  processed_items_archived : Nat
  pending_items_archived : Nat
deriving DecidableEq, Repr

/-- `DatabaseManager.reset_queue_counter`: snapshot the processed/pending
counts, append `' [RESET:' || ts || ']'` to the timestamp of every row not
already bearing a marker, force every pending row to `processed = TRUE`,
and zero the aggregate row. -/
def reset_queue_counter (db : DB) (reset_timestamp : String) :
    Bool × ResetInfo × DB :=
  let processedRows := db.items.filter fun i => i.processed
  let pendingRows := db.items.filter fun i => !i.processed
  let items1 := db.items.map fun i =>
    if hasResetMarker i.timestamp then i
    else { i with timestamp := i.timestamp ++ " [RESET:" ++ reset_timestamp ++ "]" }
  let items2 := items1.map fun i =>
    if i.processed then i else { i with processed := true }
  (true,
   ⟨reset_timestamp,
    processedRows.length + pendingRows.length,
    sumAmounts processedRows + sumAmounts pendingRows,
    processedRows.length,
    pendingRows.length⟩,
   { db with items := items2, stats := ⟨0, 0⟩ })

/-! TTS fallback resolver (`TTSManager` in `tts_queue.py`).  A provider's
behaviour for the one request under consideration is abstracted as its
outcome: `generate_speech` may raise, return `None`, or return a path
(together with whether `os.path.exists` holds for it). -/

/-- Outcome of one `provider.generate_speech` call. -/
inductive GenOutcome
  | raises
  | retNone
  | retPath (path : String) (onDisk : Bool)
deriving DecidableEq, Repr

/-- A provider as seen by the fallback loop: its `enabled` flag and its
outcome for the request at hand. -/
structure ProviderSpec where
  enabled : Bool
  outcome : GenOutcome
deriving DecidableEq, Repr

/-- Lookup in the `self.providers` dict (insertion-ordered associations). -/
def plookup (n : String) : List (String × ProviderSpec) → Option ProviderSpec
  | [] => none
  | (k, p) :: rest => if n = k then some p else plookup n rest

/-- A resolved `{provider, voice}` pair (`options` are folded into the
provider outcome abstraction). -/
structure VoiceSettings where
  provider : String
  voice : Option String
deriving DecidableEq, Repr

/-- `TTSManager` configuration: fallback order, tier table, per-user voices,
and the spoken-text cap. -/
structure TMConfig where
  fallback_order : List String
  tier_settings : List (String × VoiceSettings)
  user_voices : List (String × VoiceSettings)
  max_message_length : Nat
deriving Repr

/-- Association lookup for voice-settings tables. -/
def vlookup (n : String) : List (String × VoiceSettings) → Option VoiceSettings
  | [] => none
  | (k, v) :: rest => if n = k then some v else vlookup n rest

/-- `TTSManager.get_voice_settings`: per-user override first, else the tier
determined by the amount (`vip` at 100, `premium` at 25, else `default`). -/
def get_voice_settings (cfg : TMConfig) (username : String) (amount : ℚ) :
    VoiceSettings :=
  match vlookup username cfg.user_voices with
  | some v => v
  | none =>
    let tier := if amount ≥ 100 then "vip" else if amount ≥ 25 then "premium" else "default"
    match vlookup tier cfg.tier_settings with
    | some v => v
    | none => (vlookup "default" cfg.tier_settings).getD ⟨"edge_tts", none⟩

/-- `providers_to_try = [preferred_provider] + [p for p in self.fallback_order
if p != preferred_provider]`. -/
def providersToTry (preferred : String) (fallback_order : List String) :
    List String :=
  preferred :: fallback_order.filter (fun p => p ≠ preferred)

/-- The fallback loop of `TTSManager.generate_and_play_tts` over the
candidate names.  The accumulator is the current value of the `audio_file`
variable (an exception leaves it unchanged, a `None` return overwrites it,
a returned path overwrites it and wins when the file exists).  Returns the
final `audio_file`, the `used_provider`, and the list of candidates on which
`generate_speech` was actually invoked. -/
def tryChain (providers : List (String × ProviderSpec)) :
    List String → Option String → Option String × Option String × List String
  | [], acc => (acc, none, [])
  | n :: rest, acc =>
    match plookup n providers with
    | none => tryChain providers rest acc
    | some p =>
      if p.enabled then
        match p.outcome with
        | .raises =>
          let r := tryChain providers rest acc
          (r.1, r.2.1, n :: r.2.2)
        | .retNone =>
          let r := tryChain providers rest none
          (r.1, r.2.1, n :: r.2.2)
        | .retPath path ok =>
          if ok then (some path, some n, [n])
          else
            let r := tryChain providers rest (some path)
            (r.1, r.2.1, n :: r.2.2)
      else tryChain providers rest acc

/-- The in-memory `self.stats` dict of `TTSManager.__init__`:
`{'total_generated': 0, 'cache_hits': 0, 'provider_usage': {},
'generation_times': []}`. -/
structure TMStats where
  total_generated : Nat
  cache_hits : Nat
  provider_usage : List (Option String × Nat)
  generation_times : List ℚ
deriving DecidableEq, Repr

/-- The initial `TTSManager` statistics. -/
def initTMStats : TMStats := ⟨0, 0, [], []⟩

/-- Increment `self.stats['provider_usage'][used_provider]`, inserting the
key at 1 when absent (the Python dict is keyed by the possibly-`None`
`used_provider`). -/
def bumpUsage : List (Option String × Nat) → Option String → List (Option String × Nat)
  | [], k => [(k, 1)]
  | (k', c) :: rest, k =>
    if k = k' then (k', c + 1) :: rest else (k', c) :: bumpUsage rest k

/-- The statistics update performed by `generate_and_play_tts` once an audio
file was produced: bump `total_generated`, append the generation latency and
trim the rolling window to 100 entries, and bump the used provider's usage
count.  `cache_hits` is not touched anywhere in the source. -/
def recordStats (st : TMStats) (used : Option String) (t : ℚ) : TMStats :=
  let gt := st.generation_times ++ [t]
  { total_generated := st.total_generated + 1
    cache_hits := st.cache_hits
    provider_usage := bumpUsage st.provider_usage used
    generation_times := if gt.length > 100 then gt.drop 1 else gt }

/-- Two-decimal rendering of an amount, standing in for Python's
`f"{amount:.2f}"`. -/
def fmt2 (q : ℚ) : String :=
  let cents : Int := ⌊q * 100 + 1/2⌋
  toString (cents / 100) ++ "." ++ toString (cents % 100)

/-- The spoken text built by `generate_and_play_tts`, with the truncation to
`max_message_length` and its marker. -/
def buildTtsText (cfg : TMConfig) (username : String) (amount : ℚ)
    (text : String) : String :=
  let tts_text := username ++ " donated $" ++ fmt2 amount ++ " and says: " ++ text
  if tts_text.length > cfg.max_message_length then
    (tts_text.take cfg.max_message_length) ++ "... message truncated"
  else tts_text

/-- Result of `TTSManager.generate_and_play_tts`: the returned boolean, the
statistics dict afterwards, the recorded `used_provider`, the candidates on
which `generate_speech` was invoked, and whether `play_audio` was reached. -/
structure GenPlayResult where
  success : Bool
  stats : TMStats
  used_provider : Option String
  invoked : List String
  playbackAttempted : Bool
deriving Repr

/-- `TTSManager.generate_and_play_tts`: resolve the voice settings, build the
candidate order, run the fallback loop; when no audio file results, return
`False` with no playback and no statistics update; otherwise play the file
(`playOk` is the `play_audio` result) and record the statistics.  `t` stands
for the measured generation latency. -/
def generate_and_play_tts (st : TMStats) (providers : List (String × ProviderSpec))
    (cfg : TMConfig) (text username : String) (amount : ℚ) (t : ℚ)
    (playOk : Bool) : GenPlayResult :=
  let vs := get_voice_settings cfg username amount
  let _tts_text := buildTtsText cfg username amount text
  let candidates := providersToTry vs.provider cfg.fallback_order
  match tryChain providers candidates none with
  | (none, _, inv) => ⟨false, st, none, inv, false⟩
  | (some _, used, inv) => ⟨playOk, recordStats st used t, used, inv, true⟩

/-! Per-provider content-addressed cache (`TTSProvider.get_cache_path`,
`GTTSProvider.generate_speech`).  The md5 digest is modelled as a
deterministic encoding of the hashed string; determinism of the digest is
all the development relies on, and it holds for any function. -/

/-- Stand-in for `hashlib.md5(...).hexdigest()` (a deterministic function of
the hashed string). -/
def md5hex (s : String) : String := s

/-- `TTSProvider.get_cache_path`: the cache file is
`cache_dir / md5(f"{text}_{voice}_{kwargs}") + ".mp3"`. -/
def get_cache_path (cache_dir : String) (text voice kwargsRepr : String) : String :=
  cache_dir ++ "/" ++ md5hex (text ++ "_" ++ voice ++ "_" ++ kwargsRepr) ++ ".mp3"

/-- Configuration of `GTTSProvider` (`language`, `slow`, cache directory). -/
structure GTTSConfig where
  language : String
  slow : Bool
  cache_dir : String
deriving Repr

/-- The provider's cache directory contents (paths that exist on disk). -/
structure FS where
  files : List String
deriving DecidableEq, Repr

/-- Result of one modelled `GTTSProvider.generate_speech` call: the returned
path, the directory contents afterwards, and whether the gTTS vendor was
called. -/
structure GTTSResult where
  result : Option String
  fs : FS
  vendorCalled : Bool
deriving DecidableEq, Repr

/-- `GTTSProvider.generate_speech`: resolve the language and the `slow`
option, compute the cache path; when caching is on and the file exists,
return it without any vendor call; otherwise call the vendor (`vendorOk` is
whether `gTTS(...).save` succeeds) and store the artifact under the cache
path (or a temp path when caching is off). -/
def gtts_generate_speech (cfg : GTTSConfig) (fs : FS) (available : Bool)
    (vendorOk : Bool) (text : String) (voice : Option String)
    (slow : Option Bool) (cache : Bool) (tempPath : String) : GTTSResult :=
  if !available then ⟨none, fs, false⟩
  else
    let lang := voice.getD cfg.language
    let slowEff := slow.getD cfg.slow
    let cache_path := get_cache_path cfg.cache_dir text lang (toString slowEff)
    if cache && fs.files.contains cache_path then ⟨some cache_path, fs, false⟩
    else if vendorOk then
      let out := if cache then cache_path else tempPath
      ⟨some out, ⟨out :: fs.files⟩, true⟩
    else ⟨none, fs, true⟩

/-! Ingestion boundary: the `/add_donation` route handler. -/

/-- A JSON value in the `amount` field, as seen by Python's `float(...)`:
numbers and numeric strings convert, anything else raises `ValueError`. -/
inductive JsonVal
  | jnum (q : ℚ)
  | jstrNum (q : ℚ)
  | jstrBad (s : String)
deriving DecidableEq, Repr

/-- Python `float(...)` on a JSON value. -/
def pyFloat : JsonVal → Option ℚ
  | .jnum q => some q
  | .jstrNum q => some q
  | .jstrBad _ => none

/-- The JSON body posted to `/add_donation`. -/
structure Payload where
  username : Option String
  message : Option String
  amount : Option JsonVal
deriving Repr

/-- The `add_donation` route handler: `username` defaults to `'Anonymous'`,
`message` to `''`, `amount` to `0.0`; `float(...)` raising is caught and
reported as an error with no insertion; otherwise the parsed amount is
inserted via `add_to_queue` unchanged (no sign check anywhere). -/
def add_donation (db : DB) (p : Payload) (now_ts : String) (now_ca : Nat) :
    Bool × DB :=
  let username := p.username.getD "Anonymous"
  let message := p.message.getD ""
  match pyFloat (p.amount.getD (.jnum 0)) with
  | none => (false, db)
  | some amount =>
    let r := add_to_queue db username message amount now_ts now_ca
    (r.1, r.2)

/-! Queue orchestrator (`TTSQueueSystem.process_next_item`). -/

/-- The mutable state the orchestrator touches: the database and the
in-memory TTS statistics. -/
structure SysState where
  db : DB
  tmStats : TMStats
deriving Repr

/-- The fixed TTS environment of one processing attempt: the provider table,
the manager configuration, the measured latency, and the `play_audio`
outcome. -/
structure TTSEnv where
  providers : List (String × ProviderSpec)
  cfg : TMConfig
  t : ℚ
  playOk : Bool

/-- `TTSQueueSystem.process_next_item` (body held under `processing_lock`):
pull the next pending item; when none, report `False` ("nothing to do");
otherwise run `generate_and_play_tts` on it; on success mark the item
processed; on synthesis failure leave the ledger untouched and report
failure. -/
def process_next_item (env : TTSEnv) (s : SysState) : Bool × SysState :=
  match get_next_item s.db with
  | none => (false, s)
  | some item =>
    let r := generate_and_play_tts s.tmStats env.providers env.cfg
      item.message item.username item.amount env.t env.playOk
    if r.success then
      (true, ⟨(mark_processed s.db item.id false).2, r.stats⟩)
    else (false, ⟨s.db, r.stats⟩)

/-! Concurrency model of `processing_lock`.  Two threads, each running the
body of `process_next_item`, are interleaved by an arbitrary scheduler.  The
`threading.Lock` is explicit: a thread at `start` enters the body only by
acquiring the free lock, and every later program point is reached while
holding it; a scheduled thread that is blocked or finished stutters. -/

/-- Program points of one `process_next_item` call: before the lock, after
the pull, after a successful synthesis, after the mark, and returned. -/
inductive PC
  | start
  | pulled
  | synthed
  | marked
  | finished
deriving DecidableEq, Repr

/-- Joint state of the two threads: the shared database, the lock holder,
and each thread's program point, pulled item, and returned value. -/
structure MState where
  db : DB
  lock : Option Bool
  pc0 : PC
  pc1 : PC
  cur0 : Option QueueItem
  cur1 : Option QueueItem
  res0 : Option Bool
  res1 : Option Bool
deriving DecidableEq, Repr

/-- One scheduler step giving thread `t` a time slice.  `synthOk` is the
`generate_and_play_tts` outcome for the pulled item. -/
def mstep (synthOk : Bool) (s : MState) (t : Bool) : MState :=
  match t with
  | false =>
    match s.pc0 with
    | .start =>
      match s.lock with
      | none => { s with lock := some false, pc0 := .pulled, cur0 := get_next_item s.db }
      | some _ => s
    | .pulled =>
      match s.cur0 with
      | none => { s with lock := none, pc0 := .finished, res0 := some false }
      | some _ =>
        if synthOk then { s with pc0 := .synthed }
        else { s with lock := none, pc0 := .finished, res0 := some false }
    | .synthed =>
      match s.cur0 with
      | some it => { s with db := (mark_processed s.db it.id false).2, pc0 := .marked }
      | none => s
    | .marked => { s with lock := none, pc0 := .finished, res0 := some true }
    | .finished => s
  | true =>
    match s.pc1 with
    | .start =>
      match s.lock with
      | none => { s with lock := some true, pc1 := .pulled, cur1 := get_next_item s.db }
      | some _ => s
    | .pulled =>
      match s.cur1 with
      | none => { s with lock := none, pc1 := .finished, res1 := some false }
      | some _ =>
        if synthOk then { s with pc1 := .synthed }
        else { s with lock := none, pc1 := .finished, res1 := some false }
    | .synthed =>
      match s.cur1 with
      | some it => { s with db := (mark_processed s.db it.id false).2, pc1 := .marked }
      | none => s
    | .marked => { s with lock := none, pc1 := .finished, res1 := some true }
    | .finished => s

/-- Run a schedule (a list of time slices). -/
def mrun (synthOk : Bool) (s : MState) : List Bool → MState
  | [] => s
  | t :: sched => mrun synthOk (mstep synthOk s t) sched

/-- Both threads about to call `process_next_item` on database `db`. -/
def minit (db : DB) : MState :=
  ⟨db, none, .start, .start, none, none, none, none⟩

/-! Helper lemmas about the reset-marker substring test. -/

theorem strHasPre_append_self (p r : List Char) : strHasPre p (p ++ r) = true := by
  induction p with
  | nil => rfl
  | cons a as ih => simp [strHasPre, ih]

theorem containsSub_append_self (p r : List Char) : containsSub p (p ++ r) = true := by
  cases p with
  | nil =>
    cases r with
    | nil => rfl
    | cons c cs => simp [containsSub, strHasPre]
  | cons a as =>
    rw [List.cons_append]
    have h := strHasPre_append_self (a :: as) r
    rw [List.cons_append] at h
    simp [containsSub, h]

theorem containsSub_cons_of (c : Char) (pat L : List Char)
    (h : containsSub pat L = true) : containsSub pat (c :: L) = true := by
  simp [containsSub, h]

theorem containsSub_append_of (pat ys : List Char) (h : containsSub pat ys = true)
    (xs : List Char) : containsSub pat (xs ++ ys) = true := by
  induction xs with
  | nil => simpa using h
  | cons x xs ih => simpa [containsSub] using Or.inr ih

theorem hasResetMarker_append (ts rts : String) :
    hasResetMarker (ts ++ " [RESET:" ++ rts ++ "]") = true := by
  unfold hasResetMarker
  have hdata : (ts ++ " [RESET:" ++ rts ++ "]").data
      = ts.data ++ (' ' :: ("[RESET:".data ++ (rts.data ++ "]".data))) := by
    rw [String.data_append, String.data_append, String.data_append]
    rw [show " [RESET:".data = ' ' :: "[RESET:".data from rfl]
    simp [List.append_assoc]
  rw [hdata]
  exact containsSub_append_of _ _
    (containsSub_cons_of _ _ _ (containsSub_append_self _ _)) _

/-! Helper lemmas about `mark_processed`. -/

theorem setProcessed_self (i : QueueItem) (h : i.processed = true) :
    ({ i with processed := true } : QueueItem) = i := by
  cases i
  simp_all

theorem map_markProcessed_id (l : List QueueItem) (item_id : Nat)
    (h : ∀ i ∈ l, i.id = item_id → i.processed = true) :
    (l.map fun i => if i.id = item_id then { i with processed := true } else i) = l := by
  induction l with
  | nil => rfl
  | cons a l ih =>
    simp only [List.map_cons]
    rw [ih fun i hi hid => h i (List.mem_cons_of_mem a hi) hid]
    by_cases ha : a.id = item_id
    · rw [if_pos ha, setProcessed_self a (h a (List.mem_cons_self a l) ha)]
    · rw [if_neg ha]

/-! Helper lemmas about `minByCreated`. -/

theorem minByCreated_ne_none (a : QueueItem) (l : List QueueItem) :
    minByCreated (a :: l) ≠ none := by
  cases hr : minByCreated l with
  | none => simp [minByCreated, hr]
  | some j =>
    by_cases hlt : j.created_at < a.created_at <;> simp [minByCreated, hr, hlt]

theorem minByCreated_none_nil (l : List QueueItem) (h : minByCreated l = none) :
    l = [] := by
  cases l with
  | nil => rfl
  | cons a m => exact absurd h (minByCreated_ne_none a m)

theorem minByCreated_mem (l : List QueueItem) (i : QueueItem)
    (h : minByCreated l = some i) : i ∈ l := by
  induction l generalizing i with
  | nil => cases h
  | cons a l ih =>
    cases hr : minByCreated l with
    | none =>
      simp only [minByCreated, hr] at h
      cases h
      exact List.mem_cons_self a l
    | some j =>
      simp only [minByCreated, hr] at h
      by_cases hlt : j.created_at < a.created_at
      · rw [if_pos hlt] at h
        cases h
        exact List.mem_cons_of_mem a (ih _ hr)
      · rw [if_neg hlt] at h
        cases h
        exact List.mem_cons_self a l

theorem minByCreated_min (l : List QueueItem)
    (hp : l.Pairwise (fun a b => a.id < b.id)) (i : QueueItem)
    (h : minByCreated l = some i) :
    ∀ j ∈ l, i.created_at < j.created_at ∨
      (i.created_at = j.created_at ∧ i.id ≤ j.id) := by
  induction l generalizing i with
  | nil => cases h
  | cons a l ih =>
    rw [List.pairwise_cons] at hp
    obtain ⟨ha, hp'⟩ := hp
    intro j hj
    cases hr : minByCreated l with
    | none =>
      simp only [minByCreated, hr] at h
      cases h
      rw [minByCreated_none_nil l hr] at hj
      rcases List.mem_cons.mp hj with rfl | hjl
      · exact Or.inr ⟨rfl, le_refl _⟩
      · cases hjl
    | some j0 =>
      simp only [minByCreated, hr] at h
      by_cases hlt : j0.created_at < a.created_at
      · rw [if_pos hlt] at h
        cases h
        rcases List.mem_cons.mp hj with rfl | hjl
        · exact Or.inl hlt
        · exact ih hp' _ hr j hjl
      · rw [if_neg hlt] at h
        cases h
        push_neg at hlt
        rcases List.mem_cons.mp hj with rfl | hjl
        · exact Or.inr ⟨rfl, le_refl _⟩
        · rcases ih hp' _ hr j hjl with h1 | ⟨h2, _⟩
          · exact Or.inl (lt_of_le_of_lt hlt h1)
          · rcases lt_or_eq_of_le (le_trans hlt (le_of_eq h2)) with h3 | h3
            · exact Or.inl h3
            · exact Or.inr ⟨h3, le_of_lt (ha j hjl)⟩

/-! Claim theorems. -/

/-- C1: the claim says the Reconciler inside `stats()` never decreases an
aggregate field, in particular not when the recorded aggregate is higher in
one field but lower in the other.  The code violates this (a code bug, since
its own log message says repairs that "would decrease values" are skipped):
with a single unarchived processed row of amount 20 and a recorded aggregate
of (5, 10) — higher in count, lower in amount — the repair guard
`stats_processed_count < actual or stats_processed_amount < actual` fires on
the amount and overwrites both fields with the scanned values (1, 20),
lowering `total_processed` from 5 to 1 with no reset or manual repair
involved. -/
theorem c1_reconciler_decreases_total_processed :
    (⟨[⟨1, "u", "m", 20, "ts", true, 0⟩], ⟨5, 10⟩, 2⟩ : DB).stats.total_processed = 5 ∧
    (get_queue_stats ⟨[⟨1, "u", "m", 20, "ts", true, 0⟩], ⟨5, 10⟩, 2⟩).2.stats.total_processed = 1 := by
  constructor
  · rfl
  · with_unfolding_all rfl

/-- C2: `mark_processed` is all-or-nothing.  An unknown item id fails with no
state change; a storage fault injected between the item UPDATE and the
aggregate UPDATE fails with no visible change to either table; on success
the flipped `processed` flag and the aggregate increments
(`total_processed + 1`, `total_amount + amount`) are visible together. -/
theorem c2_mark_processed_atomic (db : DB) (item_id : Nat) :
    (db.items.find? (fun i => i.id == item_id) = none →
      ∀ fault, mark_processed db item_id fault = (false, db)) ∧
    mark_processed db item_id true = (false, db) ∧
    (∀ it, db.items.find? (fun i => i.id == item_id) = some it →
      mark_processed db item_id false =
        (true,
         { db with
           items := db.items.map fun i =>
             if i.id = item_id then { i with processed := true } else i,
           stats := ⟨db.stats.total_processed + 1, db.stats.total_amount + it.amount⟩ })) := by
  refine ⟨fun h fault => by simp [mark_processed, h], ?_, fun it h => by simp [mark_processed, h]⟩
  cases h : db.items.find? (fun i => i.id == item_id) with
  | none => simp [mark_processed, h]
  | some it => simp [mark_processed, h]

/-- C2 witness: on a one-row database, an unknown id (2) fails leaving the
state unchanged and a fault-free call on the known id (1) flips the row and
increments the aggregate in one step. -/
theorem c2_mark_processed_atomic_witness :
    mark_processed ⟨[⟨1, "a", "b", 3, "t", false, 0⟩], ⟨0, 0⟩, 2⟩ 2 false =
      (false, ⟨[⟨1, "a", "b", 3, "t", false, 0⟩], ⟨0, 0⟩, 2⟩) ∧
    mark_processed ⟨[⟨1, "a", "b", 3, "t", false, 0⟩], ⟨0, 0⟩, 2⟩ 1 true =
      (false, ⟨[⟨1, "a", "b", 3, "t", false, 0⟩], ⟨0, 0⟩, 2⟩) ∧
    mark_processed ⟨[⟨1, "a", "b", 3, "t", false, 0⟩], ⟨0, 0⟩, 2⟩ 1 false =
      (true, ⟨[⟨1, "a", "b", 3, "t", true, 0⟩], ⟨1, 3⟩, 2⟩) :=
  ⟨(c2_mark_processed_atomic ⟨[⟨1, "a", "b", 3, "t", false, 0⟩], ⟨0, 0⟩, 2⟩ 2).1
      (by with_unfolding_all rfl) false,
   (c2_mark_processed_atomic ⟨[⟨1, "a", "b", 3, "t", false, 0⟩], ⟨0, 0⟩, 2⟩ 1).2.1,
   ((c2_mark_processed_atomic ⟨[⟨1, "a", "b", 3, "t", false, 0⟩], ⟨0, 0⟩, 2⟩ 1).2.2
      ⟨1, "a", "b", 3, "t", false, 0⟩ (by with_unfolding_all rfl)).trans
      (by with_unfolding_all rfl)⟩

/-- C9 (implicit): `mark_processed` never checks the current `processed`
flag, so a second call on an already-processed row still succeeds and
increments the aggregate again (double-counting it relative to the item
rows, which are unchanged). -/
theorem c9_mark_processed_double_counts (db : DB) (it : QueueItem)
    (hfind : db.items.find? (fun i => i.id == it.id) = some it)
    (hall : ∀ i ∈ db.items, i.id = it.id → i.processed = true) :
    mark_processed db it.id false =
      (true, { db with stats := ⟨db.stats.total_processed + 1, db.stats.total_amount + it.amount⟩ }) := by
  simp only [mark_processed, hfind, if_neg (Bool.false_ne_true ∘ id)]
  rw [map_markProcessed_id db.items it.id hall]

/-- C9 witness: re-marking the already-processed row 1 (amount 3) returns
success and moves the aggregate from (7, 9) to (8, 12) while the rows stay
as they were. -/
theorem c9_mark_processed_double_counts_witness :
    mark_processed ⟨[⟨1, "a", "b", 3, "t", true, 0⟩], ⟨7, 9⟩, 2⟩ 1 false =
      (true, ⟨[⟨1, "a", "b", 3, "t", true, 0⟩], ⟨8, 12⟩, 2⟩) :=
  (c9_mark_processed_double_counts ⟨[⟨1, "a", "b", 3, "t", true, 0⟩], ⟨7, 9⟩, 2⟩
      ⟨1, "a", "b", 3, "t", true, 0⟩ (by with_unfolding_all rfl)
      (of_decide_eq_true (by with_unfolding_all rfl))).trans (by with_unfolding_all rfl)

/-- C8 counterexample: the claim says every negative amount is rejected with
no insertion, but the route only applies Python's `float(...)`, which parses
`-5` happily; the call reports success and the item is inserted with amount
`-5`. -/
theorem c8_negative_amount_accepted :
    (add_donation ⟨[], ⟨0, 0⟩, 1⟩ ⟨some "user", some "msg", some (.jnum (-5))⟩ "t" 0).1 = true ∧
    (add_donation ⟨[], ⟨0, 0⟩, 1⟩ ⟨some "user", some "msg", some (.jnum (-5))⟩ "t" 0).2.items =
      [⟨1, "user", "msg", -5, "t", false, 0⟩] := by
  constructor <;> with_unfolding_all rfl

/-- C8 (amended): the ingestion route rejects any amount on which
`float(...)` raises — reporting failure with no state change — and inserts
the parsed amount otherwise, whatever its sign; a missing `username`
defaults to "Anonymous" and a missing `message` to the empty string. -/
theorem c8_ingestion_validation (db : DB) (p : Payload) (now_ts : String)
    (now_ca : Nat) :
    (pyFloat (p.amount.getD (.jnum 0)) = none →
      add_donation db p now_ts now_ca = (false, db)) ∧
    (∀ a, pyFloat (p.amount.getD (.jnum 0)) = some a →
      add_donation db p now_ts now_ca =
        (true,
         { db with
           items := db.items ++
             [⟨db.next_id, p.username.getD "Anonymous", p.message.getD "", a, now_ts, false, now_ca⟩],
           next_id := db.next_id + 1 })) := by
  constructor
  · intro h
    simp [add_donation, h]
  · intro a h
    simp [add_donation, h, add_to_queue]

/-- C8 witness: a non-numeric amount string is rejected with the database
unchanged, while a parseable (here negative) amount is inserted with the
defaulted username. -/
theorem c8_ingestion_validation_witness :
    add_donation ⟨[], ⟨0, 0⟩, 1⟩ ⟨none, none, some (.jstrBad "abc")⟩ "t" 0 =
      (false, ⟨[], ⟨0, 0⟩, 1⟩) ∧
    add_donation ⟨[], ⟨0, 0⟩, 1⟩ ⟨none, none, some (.jnum (-5))⟩ "t" 0 =
      (true, ⟨[⟨1, "Anonymous", "", -5, "t", false, 0⟩], ⟨0, 0⟩, 2⟩) :=
  ⟨(c8_ingestion_validation ⟨[], ⟨0, 0⟩, 1⟩ ⟨none, none, some (.jstrBad "abc")⟩ "t" 0).1 rfl,
   ((c8_ingestion_validation ⟨[], ⟨0, 0⟩, 1⟩ ⟨none, none, some (.jnum (-5))⟩ "t" 0).2
      (-5) rfl).trans (by with_unfolding_all rfl)⟩

/-- Helper for C7: no statistics update in `generate_and_play_tts` ever
touches `cache_hits`. -/
theorem generate_and_play_cache_hits (st : TMStats)
    (providers : List (String × ProviderSpec)) (cfg : TMConfig)
    (text username : String) (amount t : ℚ) (playOk : Bool) :
    (generate_and_play_tts st providers cfg text username amount t playOk).stats.cache_hits
      = st.cache_hits := by
  unfold generate_and_play_tts
  cases htc : tryChain providers
      (providersToTry (get_voice_settings cfg username amount).provider cfg.fallback_order)
      none with
  | mk audio rest =>
    cases audio with
    | none => simp [htc]
    | some path => simp [htc, recordStats]

/-- C7: two `generate_speech` calls with identical inputs yield the same
artifact path (the cache key is a deterministic function of text, voice and
options) and the second call is served from the cache with no vendor call —
but the claim's last part fails (a code bug): `self.stats['cache_hits']` is
initialised to 0 in `TTSManager.__init__` and no code path ever increments
it, so the counter stays 0 after the cache hit instead of going up. -/
theorem c7_cache_hit_counter_never_incremented :
    (gtts_generate_speech ⟨"en", false, "c"⟩ ⟨[]⟩ true true "hello" none none true "tmp1").result
      = some (get_cache_path "c" "hello" "en" (toString false)) ∧
    gtts_generate_speech ⟨"en", false, "c"⟩
        (gtts_generate_speech ⟨"en", false, "c"⟩ ⟨[]⟩ true true "hello" none none true "tmp1").fs
        true true "hello" none none true "tmp2"
      = ⟨some (get_cache_path "c" "hello" "en" (toString false)),
         (gtts_generate_speech ⟨"en", false, "c"⟩ ⟨[]⟩ true true "hello" none none true "tmp1").fs,
         false⟩ ∧
    initTMStats.cache_hits = 0 ∧
    (∀ st providers cfg text username amount t playOk,
      (generate_and_play_tts st providers cfg text username amount t playOk).stats.cache_hits
        = st.cache_hits) :=
  ⟨by with_unfolding_all rfl, by with_unfolding_all rfl, rfl,
   fun st providers cfg text username amount t playOk =>
     generate_and_play_cache_hits st providers cfg text username amount t playOk⟩

/-- Helper for C3: when every row is processed and bears a reset marker and
the aggregate row is zero, `get_queue_stats` reports all four figures as
zero and performs no repair. -/
theorem get_queue_stats_all_archived (db : DB)
    (h1 : ∀ i ∈ db.items, i.processed = true)
    (h2 : ∀ i ∈ db.items, hasResetMarker i.timestamp = true)
    (h3 : db.stats = ⟨0, 0⟩) :
    get_queue_stats db = (⟨0, 0, 0, 0⟩, db) := by
  have hpend : db.items.filter (fun i => !i.processed) = [] :=
    List.filter_eq_nil_iff.mpr fun i hi => by simp [h1 i hi]
  have hact : db.items.filter (fun i => i.processed && !hasResetMarker i.timestamp) = [] :=
    List.filter_eq_nil_iff.mpr fun i hi => by simp [h2 i hi]
  unfold get_queue_stats
  rw [hpend, hact, h3]
  norm_num [sumAmounts]

/-- C3: a successful `reset_queue_counter` followed immediately by
`get_queue_stats` yields zero for all four figures even though the archived
rows still exist: every row now carries the reset marker and is forced to
processed, so both the pending scan and the Reconciler's marker-excluding
scan are empty, matching the zeroed aggregate — and the Reconciler leaves
the state untouched (no repair back up). -/
theorem c3_reset_then_stats_zero (db : DB) (ts : String) :
    (reset_queue_counter db ts).1 = true ∧
    get_queue_stats (reset_queue_counter db ts).2.2 =
      (⟨0, 0, 0, 0⟩, (reset_queue_counter db ts).2.2) := by
  refine ⟨rfl, get_queue_stats_all_archived _ ?_ ?_ rfl⟩
  · intro i hi
    simp only [reset_queue_counter, List.mem_map] at hi
    obtain ⟨j, ⟨k, hk, rfl⟩, rfl⟩ := hi
    by_cases hp : (if hasResetMarker k.timestamp then k
        else { k with timestamp := k.timestamp ++ " [RESET:" ++ ts ++ "]" }).processed
    · simp [hp]
    · simp [hp]
  · intro i hi
    simp only [reset_queue_counter, List.mem_map] at hi
    obtain ⟨j, ⟨k, hk, rfl⟩, rfl⟩ := hi
    have hts : ∀ x : QueueItem,
        ((if x.processed then x else { x with processed := true }) : QueueItem).timestamp
          = x.timestamp := by
      intro x
      by_cases hx : x.processed <;> simp [hx]
    rw [hts]
    by_cases hm : hasResetMarker k.timestamp
    · simp [hm]
    · simp only [if_neg hm]
      exact hasResetMarker_append k.timestamp ts

/-- C4: `get_next_item` returns an unprocessed row that is minimal among all
unprocessed rows, strictly by `created_at` with `created_at` ties resolved
to the smaller id (rows are scanned in rowid order and ids increase along
the table), and the call is idempotent: with no intervening mutation the
same row is returned again. -/
theorem c4_next_pending_is_oldest (db : DB)
    (hids : db.items.Pairwise (fun a b => a.id < b.id)) (i : QueueItem)
    (h : get_next_item db = some i) :
    i ∈ db.items ∧ i.processed = false ∧
    (∀ j ∈ db.items, j.processed = false →
      i.created_at < j.created_at ∨ (i.created_at = j.created_at ∧ i.id ≤ j.id)) ∧
    get_next_item db = some i := by
  have h' : minByCreated (pendingOf db) = some i := h
  have hmem : i ∈ pendingOf db := minByCreated_mem _ _ h'
  have hmem' : i ∈ db.items ∧ (!i.processed) = true := List.mem_filter.mp hmem
  refine ⟨hmem'.1, by simpa using hmem'.2, ?_, h⟩
  intro j hj hjp
  have hjpend : j ∈ pendingOf db := List.mem_filter.mpr ⟨hj, by simp [hjp]⟩
  exact minByCreated_min _ (hids.filter _) _ h' j hjpend

/-- C4 witness: two unprocessed rows share `created_at = 5`; the returned
row 1 is a member, is unprocessed, and beats row 2 on the id tie-break. -/
theorem c4_next_pending_is_oldest_witness :
    (⟨1, "a", "m1", 1, "t1", false, 5⟩ : QueueItem) ∈
      (⟨[⟨1, "a", "m1", 1, "t1", false, 5⟩, ⟨2, "b", "m2", 2, "t2", false, 5⟩], ⟨0, 0⟩, 3⟩ : DB).items ∧
    ((⟨1, "a", "m1", 1, "t1", false, 5⟩ : QueueItem).created_at <
        (⟨2, "b", "m2", 2, "t2", false, 5⟩ : QueueItem).created_at ∨
      ((⟨1, "a", "m1", 1, "t1", false, 5⟩ : QueueItem).created_at =
          (⟨2, "b", "m2", 2, "t2", false, 5⟩ : QueueItem).created_at ∧
        (⟨1, "a", "m1", 1, "t1", false, 5⟩ : QueueItem).id ≤
          (⟨2, "b", "m2", 2, "t2", false, 5⟩ : QueueItem).id)) :=
  ⟨(c4_next_pending_is_oldest
      ⟨[⟨1, "a", "m1", 1, "t1", false, 5⟩, ⟨2, "b", "m2", 2, "t2", false, 5⟩], ⟨0, 0⟩, 3⟩
      (of_decide_eq_true (by with_unfolding_all rfl)) ⟨1, "a", "m1", 1, "t1", false, 5⟩
      (by with_unfolding_all rfl)).1,
   (c4_next_pending_is_oldest
      ⟨[⟨1, "a", "m1", 1, "t1", false, 5⟩, ⟨2, "b", "m2", 2, "t2", false, 5⟩], ⟨0, 0⟩, 3⟩
      (of_decide_eq_true (by with_unfolding_all rfl)) ⟨1, "a", "m1", 1, "t1", false, 5⟩
      (by with_unfolding_all rfl)).2.2.1 ⟨2, "b", "m2", 2, "t2", false, 5⟩
      (List.mem_cons_of_mem _ (List.mem_cons_self _ _)) rfl⟩

/-- Helper for C5: when every registered provider is disabled, raises, or
returns `None`, the fallback loop ends with no audio file and no used
provider. -/
theorem tryChain_all_fail (providers : List (String × ProviderSpec))
    (hfail : ∀ n p, plookup n providers = some p →
      p.enabled = false ∨ p.outcome = .raises ∨ p.outcome = .retNone)
    (l : List String) :
    (tryChain providers l none).1 = none ∧ (tryChain providers l none).2.1 = none := by
  induction l with
  | nil => exact ⟨rfl, rfl⟩
  | cons n rest ih =>
    cases hp : plookup n providers with
    | none => simpa [tryChain, hp] using ih
    | some p =>
      by_cases he : p.enabled = true
      · rcases hfail n p hp with he' | ho | ho
        · rw [he] at he'
          cases he'
        · simpa [tryChain, hp, he, ho] using ih
        · simpa [tryChain, hp, he, ho] using ih
      · have he' : p.enabled = false := by simpa using he
        simpa [tryChain, hp, he'] using ih

/-- Helper: any item returned by `get_next_item` is an unprocessed member of
the table. -/
theorem get_next_item_pending (db : DB) (i : QueueItem)
    (h : get_next_item db = some i) : i ∈ db.items ∧ i.processed = false := by
  have hmem : i ∈ pendingOf db :=
    minByCreated_mem _ _ (h : minByCreated (pendingOf db) = some i)
  have h2 := List.mem_filter.mp hmem
  exact ⟨h2.1, by simpa using h2.2⟩

/-- C5: when every provider in the chain is disabled or fails (raises or
returns `None`), `generate_and_play_tts` returns failure with the usage
statistics untouched and no playback attempt, and `process_next_item` then
returns failure with the whole state unchanged — the originating item, being
pending, still has `processed = false`. -/
theorem c5_all_providers_fail (env : TTSEnv) (s : SysState)
    (hfail : ∀ n p, plookup n env.providers = some p →
      p.enabled = false ∨ p.outcome = .raises ∨ p.outcome = .retNone) :
    (∀ text username amount,
      (generate_and_play_tts s.tmStats env.providers env.cfg text username amount
          env.t env.playOk).success = false ∧
      (generate_and_play_tts s.tmStats env.providers env.cfg text username amount
          env.t env.playOk).stats = s.tmStats ∧
      (generate_and_play_tts s.tmStats env.providers env.cfg text username amount
          env.t env.playOk).playbackAttempted = false) ∧
    process_next_item env s = (false, s) ∧
    (∀ item, get_next_item s.db = some item → item.processed = false) := by
  have hgen : ∀ (st : TMStats) (text username : String) (amount : ℚ),
      generate_and_play_tts st env.providers env.cfg text username amount env.t env.playOk
        = ⟨false, st, none,
           (tryChain env.providers
             (providersToTry (get_voice_settings env.cfg username amount).provider
               env.cfg.fallback_order) none).2.2, false⟩ := by
    intro st text username amount
    obtain ⟨h1, h2⟩ := tryChain_all_fail env.providers hfail
      (providersToTry (get_voice_settings env.cfg username amount).provider
        env.cfg.fallback_order)
    simp only [generate_and_play_tts]
    cases htc : tryChain env.providers
        (providersToTry (get_voice_settings env.cfg username amount).provider
          env.cfg.fallback_order) none with
    | mk a r =>
      cases r with
      | mk u inv =>
        rw [htc] at h1
        cases a with
        | none => rfl
        | some path => cases h1
  refine ⟨fun text username amount => by rw [hgen]; exact ⟨rfl, rfl, rfl⟩, ?_,
    fun item h => (get_next_item_pending s.db item h).2⟩
  cases hni : get_next_item s.db with
  | none => simp [process_next_item, hni]
  | some item =>
    simp only [process_next_item, hni, hgen]
    rfl

/-- C5 witness: with edge_tts disabled and gtts returning `None`, processing
a queue with one pending item reports failure and changes nothing. -/
theorem c5_all_providers_fail_witness :
    process_next_item
      ⟨[("edge_tts", ⟨false, .retPath "x" true⟩), ("gtts", ⟨true, .retNone⟩)],
       ⟨["edge_tts", "gtts"], [("default", ⟨"edge_tts", none⟩)], [], 500⟩, 1, true⟩
      ⟨⟨[⟨1, "u", "hi", 5, "t", false, 0⟩], ⟨0, 0⟩, 2⟩, initTMStats⟩ =
    (false, ⟨⟨[⟨1, "u", "hi", 5, "t", false, 0⟩], ⟨0, 0⟩, 2⟩, initTMStats⟩) :=
  (c5_all_providers_fail
    ⟨[("edge_tts", ⟨false, .retPath "x" true⟩), ("gtts", ⟨true, .retNone⟩)],
     ⟨["edge_tts", "gtts"], [("default", ⟨"edge_tts", none⟩)], [], 500⟩, 1, true⟩
    ⟨⟨[⟨1, "u", "hi", 5, "t", false, 0⟩], ⟨0, 0⟩, 2⟩, initTMStats⟩
    (by
      intro n p h
      by_cases h1 : n = "edge_tts"
      · subst h1
        simp [plookup] at h
        rw [← h]
        exact Or.inl rfl
      · by_cases h2 : n = "gtts"
        · subst h2
          simp [plookup, h1] at h
          rw [← h]
          exact Or.inr (Or.inr rfl)
        · simp [plookup, h1, h2] at h)).2.1

/-- Whether a candidate name is registered and enabled (the candidates on
which the fallback loop invokes `generate_speech`). -/
def providerEnabled (providers : List (String × ProviderSpec)) (n : String) : Bool :=
  match plookup n providers with
  | some p => p.enabled
  | none => false

/-- Helper for C6: when no candidate in `pre` can win (none is registered,
enabled and returning an existing artifact) and `b` is registered, enabled
and returns artifact `pb`, the loop stops at `b`: the artifact is `pb`, the
used provider is `b`, and `generate_speech` was invoked exactly on the
registered enabled members of `pre` and then `b` — never on anything after
`b`. -/
theorem tryChain_first_success (providers : List (String × ProviderSpec))
    (b : String) (pspec : ProviderSpec) (pb : String)
    (hb : plookup b providers = some pspec)
    (hen : pspec.enabled = true)
    (hout : pspec.outcome = .retPath pb true) :
    ∀ (pre post : List String),
      (∀ a ∈ pre, ∀ p, plookup a providers = some p → p.enabled = true →
        ∀ path, p.outcome ≠ .retPath path true) →
      ∀ acc, tryChain providers (pre ++ b :: post) acc
        = (some pb, some b, pre.filter (providerEnabled providers) ++ [b]) := by
  intro pre
  induction pre with
  | nil =>
    intro post _ acc
    simp [tryChain, hb, hen, hout]
  | cons a pre ih =>
    intro post hpre acc
    have hpre' : ∀ x ∈ pre, ∀ p, plookup x providers = some p → p.enabled = true →
        ∀ path, p.outcome ≠ .retPath path true :=
      fun x hx => hpre x (List.mem_cons_of_mem a hx)
    cases hp : plookup a providers with
    | none =>
      simp [tryChain, hp, ih post hpre' acc, List.filter_cons, providerEnabled]
    | some p =>
      by_cases he : p.enabled = true
      · cases ho : p.outcome with
        | raises =>
          simp [tryChain, hp, he, ho, ih post hpre' acc, List.filter_cons, providerEnabled]
        | retNone =>
          simp [tryChain, hp, he, ho, ih post hpre' none, List.filter_cons, providerEnabled]
        | retPath path ok =>
          cases ok with
          | true => exact absurd ho (hpre a (List.mem_cons_self a pre) p hp he path)
          | false =>
            simp [tryChain, hp, he, ho, ih post hpre' (some path), List.filter_cons,
              providerEnabled]
      · have he' : p.enabled = false := by simpa using he
        simp [tryChain, hp, he', ih post hpre' acc, List.filter_cons, providerEnabled]

/-- C6: `generate_and_play_tts` builds the candidate list as the resolved
provider followed by the configured fallback order with the preferred name
deduplicated, skips unregistered or disabled candidates, treats raised
exceptions and empty results as "try next", and stops at the first candidate
returning a real artifact: that candidate is recorded as `used_provider`,
`generate_speech` is invoked only on the registered enabled candidates
before it and on it, and never on any later candidate. -/
theorem c6_first_artifact_wins (providers : List (String × ProviderSpec))
    (fallback_order : List String) (preferred : String)
    (pre post : List String) (b : String) (pspec : ProviderSpec) (pb : String)
    (hcand : providersToTry preferred fallback_order = pre ++ b :: post)
    (hpre : ∀ a ∈ pre, ∀ p, plookup a providers = some p → p.enabled = true →
      ∀ path, p.outcome ≠ .retPath path true)
    (hb : plookup b providers = some pspec)
    (hen : pspec.enabled = true)
    (hout : pspec.outcome = .retPath pb true) :
    tryChain providers (providersToTry preferred fallback_order) none
      = (some pb, some b, pre.filter (providerEnabled providers) ++ [b]) ∧
    (∀ n ∈ (tryChain providers (providersToTry preferred fallback_order) none).2.2,
      n ∈ pre ∨ n = b) ∧
    providersToTry preferred fallback_order
      = preferred :: fallback_order.filter (fun p => p ≠ preferred) ∧
    preferred ∉ fallback_order.filter (fun p => p ≠ preferred) := by
  have hmain := tryChain_first_success providers b pspec pb hb hen hout pre post hpre none
  refine ⟨by rw [hcand]; exact hmain, ?_, rfl, ?_⟩
  · intro n hn
    rw [hcand, hmain] at hn
    rcases List.mem_append.mp hn with h | h
    · exact Or.inl (List.mem_of_mem_filter h)
    · rcases List.mem_singleton.mp h with rfl
      exact Or.inr rfl
  · intro hmem
    have := (List.mem_filter.mp hmem).2
    simp at this

/-- C6 witness (the claim's example): providers A (raises), B (succeeds),
C (succeeds), preferred A — the call succeeds with B's artifact, records B
as used, and invokes only A and B, never C. -/
theorem c6_first_artifact_wins_witness :
    tryChain
      [("A", ⟨true, .raises⟩), ("B", ⟨true, .retPath "b.mp3" true⟩),
       ("C", ⟨true, .retPath "c.mp3" true⟩)]
      (providersToTry "A" ["A", "B", "C"]) none
      = (some "b.mp3", some "B", ["A", "B"]) :=
  ((c6_first_artifact_wins
      [("A", ⟨true, .raises⟩), ("B", ⟨true, .retPath "b.mp3" true⟩),
       ("C", ⟨true, .retPath "c.mp3" true⟩)]
      ["A", "B", "C"] "A" ["A"] ["C"] "B" ⟨true, .retPath "b.mp3" true⟩ "b.mp3"
      (by with_unfolding_all rfl)
      (by
        intro a ha p hp hen path
        have ha' : a = "A" := by simpa using ha
        subst ha'
        have h0 : plookup "A"
            [("A", (⟨true, .raises⟩ : ProviderSpec)), ("B", ⟨true, .retPath "b.mp3" true⟩),
             ("C", ⟨true, .retPath "c.mp3" true⟩)] = some ⟨true, .raises⟩ := rfl
        rw [h0] at hp
        cases hp
        intro hcon
        cases hcon)
      (by with_unfolding_all rfl) rfl rfl).1).trans (by with_unfolding_all rfl)

/-- Invariant of the two-thread interleaving: every reachable state is the
initial one; or the first thread to acquire the lock (the winner, `w`) is
mid-body with the other blocked at `start`; or the winner has finished with
result `True` over the once-marked database; or the loser holds the lock
having pulled nothing; or both threads are finished with results `True` and
`False` and the item marked exactly once. -/
inductive C10Inv (db0 : DB) (it : QueueItem) : MState → Prop
  | init : C10Inv db0 it (minit db0)
  | pulled (w : Bool) : C10Inv db0 it
      ⟨db0, some w, cond w .start .pulled, cond w .pulled .start,
       cond w none (some it), cond w (some it) none, none, none⟩
  | synthed (w : Bool) : C10Inv db0 it
      ⟨db0, some w, cond w .start .synthed, cond w .synthed .start,
       cond w none (some it), cond w (some it) none, none, none⟩
  | marked (w : Bool) : C10Inv db0 it
      ⟨(mark_processed db0 it.id false).2, some w, cond w .start .marked,
       cond w .marked .start, cond w none (some it), cond w (some it) none, none, none⟩
  | winnerDone (w : Bool) : C10Inv db0 it
      ⟨(mark_processed db0 it.id false).2, none, cond w .start .finished,
       cond w .finished .start, cond w none (some it), cond w (some it) none,
       cond w none (some true), cond w (some true) none⟩
  | loserPulled (w : Bool) : C10Inv db0 it
      ⟨(mark_processed db0 it.id false).2, some (!w), cond w .pulled .finished,
       cond w .finished .pulled, cond w none (some it), cond w (some it) none,
       cond w none (some true), cond w (some true) none⟩
  | bothDone (w : Bool) : C10Inv db0 it
      ⟨(mark_processed db0 it.id false).2, none, .finished, .finished,
       cond w none (some it), cond w (some it) none,
       cond w (some false) (some true), cond w (some true) (some false)⟩

/-- Helper for C10: the invariant is preserved by every scheduler step when
`db0` has `it` as its next pending item and the marked database has none. -/
theorem c10inv_step (db0 : DB) (it : QueueItem)
    (h1 : get_next_item db0 = some it)
    (h2 : get_next_item (mark_processed db0 it.id false).2 = none)
    {s : MState} (hs : C10Inv db0 it s) (t : Bool) :
    C10Inv db0 it (mstep true s t) := by
  cases hs with
  | init =>
    cases t
    · have e : mstep true (minit db0) false
          = ⟨db0, some false, .pulled, .start, some it, none, none, none⟩ := by
        simp [mstep, minit, h1]
      rw [e]
      exact C10Inv.pulled false
    · have e : mstep true (minit db0) true
          = ⟨db0, some true, .start, .pulled, none, some it, none, none⟩ := by
        simp [mstep, minit, h1]
      rw [e]
      exact C10Inv.pulled true
  | pulled w =>
    cases w
    · cases t
      · exact C10Inv.synthed false
      · exact C10Inv.pulled false
    · cases t
      · exact C10Inv.pulled true
      · exact C10Inv.synthed true
  | synthed w =>
    cases w
    · cases t
      · exact C10Inv.marked false
      · exact C10Inv.synthed false
    · cases t
      · exact C10Inv.synthed true
      · exact C10Inv.marked true
  | marked w =>
    cases w
    · cases t
      · exact C10Inv.winnerDone false
      · exact C10Inv.marked false
    · cases t
      · exact C10Inv.marked true
      · exact C10Inv.winnerDone true
  | winnerDone w =>
    cases w
    · cases t
      · exact C10Inv.winnerDone false
      · show C10Inv db0 it (mstep true
            ⟨(mark_processed db0 it.id false).2, none, .finished, .start,
             some it, none, some true, none⟩ true)
        have e : mstep true
            ⟨(mark_processed db0 it.id false).2, none, .finished, .start,
             some it, none, some true, none⟩ true
            = ⟨(mark_processed db0 it.id false).2, some true, .finished, .pulled,
               some it, none, some true, none⟩ := by
          simp [mstep, h2]
        rw [e]
        exact C10Inv.loserPulled false
    · cases t
      · show C10Inv db0 it (mstep true
            ⟨(mark_processed db0 it.id false).2, none, .start, .finished,
             none, some it, none, some true⟩ false)
        have e : mstep true
            ⟨(mark_processed db0 it.id false).2, none, .start, .finished,
             none, some it, none, some true⟩ false
            = ⟨(mark_processed db0 it.id false).2, some false, .pulled, .finished,
               none, some it, none, some true⟩ := by
          simp [mstep, h2]
        rw [e]
        exact C10Inv.loserPulled true
      · exact C10Inv.winnerDone true
  | loserPulled w =>
    cases w
    · cases t
      · exact C10Inv.loserPulled false
      · exact C10Inv.bothDone false
    · cases t
      · exact C10Inv.bothDone true
      · exact C10Inv.loserPulled true
  | bothDone w =>
    cases t
    · exact C10Inv.bothDone w
    · exact C10Inv.bothDone w

/-- Helper for C10: the invariant holds along every schedule. -/
theorem c10inv_run (db0 : DB) (it : QueueItem)
    (h1 : get_next_item db0 = some it)
    (h2 : get_next_item (mark_processed db0 it.id false).2 = none)
    (sched : List Bool) :
    ∀ s, C10Inv db0 it s → C10Inv db0 it (mrun true s sched) := by
  induction sched with
  | nil => exact fun s hs => hs
  | cons t l ih => exact fun s hs => ih _ (c10inv_step db0 it h1 h2 hs t)

/-- C10: two `process_next_item` calls racing under `processing_lock` over a
database whose single pending item is `it`: whatever the interleaving, once
both calls have returned, exactly one returned `True` and the other `False`
("nothing to do"), and the database shows exactly one `mark_processed`
application — the item is never processed twice. -/
theorem c10_lock_prevents_double_processing (db0 : DB) (it : QueueItem)
    (h1 : get_next_item db0 = some it)
    (h2 : get_next_item (mark_processed db0 it.id false).2 = none)
    (sched : List Bool)
    (hfin0 : (mrun true (minit db0) sched).pc0 = .finished)
    (hfin1 : (mrun true (minit db0) sched).pc1 = .finished) :
    (((mrun true (minit db0) sched).res0 = some true ∧
        (mrun true (minit db0) sched).res1 = some false) ∨
      ((mrun true (minit db0) sched).res0 = some false ∧
        (mrun true (minit db0) sched).res1 = some true)) ∧
    (mrun true (minit db0) sched).db = (mark_processed db0 it.id false).2 := by
  have hinv := c10inv_run db0 it h1 h2 sched (minit db0) C10Inv.init
  generalize hF : mrun true (minit db0) sched = F at hfin0 hfin1 hinv ⊢
  cases hinv with
  | init => exact nomatch hfin0
  | pulled w => cases w <;> exact nomatch hfin0
  | synthed w => cases w <;> exact nomatch hfin0
  | marked w => cases w <;> exact nomatch hfin0
  | winnerDone w =>
    cases w
    · exact nomatch hfin1
    · exact nomatch hfin0
  | loserPulled w =>
    cases w
    · exact nomatch hfin1
    · exact nomatch hfin0
  | bothDone w =>
    cases w
    · exact ⟨Or.inl ⟨rfl, rfl⟩, rfl⟩
    · exact ⟨Or.inr ⟨rfl, rfl⟩, rfl⟩

/-- C10 witness: one pending item, thread 0 scheduled through its whole body
and then thread 1: thread 0 succeeds, thread 1 finds nothing to do, and the
database shows a single mark. -/
theorem c10_lock_prevents_double_processing_witness :
    (((mrun true (minit ⟨[⟨1, "u", "hi", 5, "t", false, 0⟩], ⟨0, 0⟩, 2⟩)
          [false, false, false, false, true, true]).res0 = some true ∧
        (mrun true (minit ⟨[⟨1, "u", "hi", 5, "t", false, 0⟩], ⟨0, 0⟩, 2⟩)
          [false, false, false, false, true, true]).res1 = some false) ∨
      ((mrun true (minit ⟨[⟨1, "u", "hi", 5, "t", false, 0⟩], ⟨0, 0⟩, 2⟩)
          [false, false, false, false, true, true]).res0 = some false ∧
        (mrun true (minit ⟨[⟨1, "u", "hi", 5, "t", false, 0⟩], ⟨0, 0⟩, 2⟩)
          [false, false, false, false, true, true]).res1 = some true)) ∧
    (mrun true (minit ⟨[⟨1, "u", "hi", 5, "t", false, 0⟩], ⟨0, 0⟩, 2⟩)
        [false, false, false, false, true, true]).db =
      (mark_processed ⟨[⟨1, "u", "hi", 5, "t", false, 0⟩], ⟨0, 0⟩, 2⟩ 1 false).2 :=
  c10_lock_prevents_double_processing
    ⟨[⟨1, "u", "hi", 5, "t", false, 0⟩], ⟨0, 0⟩, 2⟩ ⟨1, "u", "hi", 5, "t", false, 0⟩
    (by with_unfolding_all rfl) (by with_unfolding_all rfl)
    [false, false, false, false, true, true]
    (by with_unfolding_all rfl) (by with_unfolding_all rfl)
